import Mathlib

/-!
Verification of `src/swarms/tools/prebuilt/code_executor.py`.

Text is modelled as `List Char` (a Python `str` is a sequence of code
points; `len`, slicing and concatenation on `str` correspond to
`List.length`, `take`/`drop` and `++` on `List Char`).

The tiktoken encoding, the black formatter and the subprocess interpreter
are external collaborators, not code of this repository: they enter the
model as function parameters (`enc`, `black`, `run`).  The thread pool in
`count_tokens` is modelled by its sequential semantics: each chunk
contributes `len(encode(chunk))` and the contributions are summed.
-/

namespace Swarms

/-- Python `range(0, n, 1000)`: the indices `i` with `0 ≤ i < n` and
`i` a multiple of 1000, in increasing order. -/
def chunkStarts (n : Nat) : List Nat :=
  (List.range n).filter (fun i => i % 1000 = 0)

/-- `TikTokenizer.count_tokens` lines 76–78: the chunk list
`[string[i : i + 1000] for i in range(0, len(string), 1000)]`.
The Python slice `s[i : i + 1000]` is `(s.drop i).take 1000`. -/
def chunks (s : List Char) : List (List Char) :=
  (chunkStarts s.length).map (fun i => (s.drop i).take 1000)

/-- `TikTokenizer.count_tokens` lines 69–93: every chunk is encoded with
`self.encoding.encode` and the lengths of the token lists are summed into
`num_tokens`.  The worker pool only parallelises these independent
additions, so the returned value is the sum of the per-chunk counts. -/
def count_tokens (enc : List Char → List Nat) (string : List Char) : Nat :=
  ((chunks string).map (fun chunk => (enc chunk).length)).sum

/-- Errors raised by `CodeExecutor`: the `ValueError` of `format_code`
(line 160) and the `RuntimeError` of `execute` (line 201). -/
inductive ExecError where
  | formatError (msg : List Char)
  | runtimeError (msg : List Char)
deriving DecidableEq

/-- The result of `subprocess.run(..., capture_output=True, text=True)`:
exit status, captured stdout and captured stderr. -/
structure CompletedProcess where
  returncode : Int
  stdout : List Char
  stderr : List Char

/-- Python slice `s[:m]` for an `int` bound `m`: a negative bound counts
from the end (clamped at 0), a non-negative bound takes at most the first
`m` elements. -/
def pySlice (s : List Char) (m : Int) : List Char :=
  if m < 0 then s.take ((s.length + m).toNat) else s.take m.toNat

/-- `CodeExecutor.format_code` lines 138–160: delegate to
`black.format_str`; on any failure raise
`ValueError(f"Error formatting code: {e}")`. -/
def format_code (black : List Char → Except (List Char) (List Char))
    (code : List Char) : Except ExecError (List Char) :=
  match black code with
  | .ok formatted => .ok formatted
  | .error e => .error (.formatError ("Error formatting code: ".data ++ e))

/-- `CodeExecutor.execute` lines 162–203: format the code (a formatting
failure propagates, only `CalledProcessError` is caught), run the
interpreter, on non-zero exit raise
`RuntimeError(f"Error executing code: {e.stderr}")`, otherwise count the
tokens of the captured stdout and truncate with `"..."` when
`self.max_output_length and token_count > self.max_output_length`. -/
def execute (black : List Char → Except (List Char) (List Char))
    (run : List Char → CompletedProcess)
    (enc : List Char → List Nat)
    (max_output_length : Int)
    (code : List Char) : Except ExecError (List Char) :=
  match format_code black code with
  | .error e => .error e
  | .ok formatted =>
    let cp := run formatted
    if cp.returncode ≠ 0 then
      .error (.runtimeError ("Error executing code: ".data ++ cp.stderr))
    else
      let output := cp.stdout
      let token_count := count_tokens enc output
      if max_output_length ≠ 0 ∧ (token_count : Int) > max_output_length then
        .ok (pySlice output max_output_length ++ "...".data)
      else
        .ok output

/-- Modelled from the spec: the tiktoken `o200k_base` encoding behind
`TikTokenizer.encode` (line 45) is an external library.  Per sections 3
and 9 of the spec it is a byte-pair encoder whose sub-word tokens may
span what becomes a chunk boundary.  This model merges each adjacent pair
of letters `a` into the single token `0x110000` (an id outside the code
point range, so it cannot collide with a single-character token) and maps
any other character to its code point. -/
def encodeBPE : List Char → List Nat
  | [] => []
  | 'a' :: 'a' :: rest => 1114112 :: encodeBPE rest
  | c :: rest => c.toNat :: encodeBPE rest

/-- Modelled from the spec: the inverse direction behind
`TikTokenizer.decode` (line 57).  A well-formed token is either the
merged pair `0x110000` or a valid code point; any other id is malformed
and decoding fails (spec section 4.1: malformed sequences fail with a
DecodeError), modelled by `none`. -/
def decodeBPE : List Nat → Option (List Char)
  | [] => some []
  | t :: rest =>
    if t = 1114112 then
      (decodeBPE rest).map (fun s => 'a' :: 'a' :: s)
    else if t.isValidChar then
      (decodeBPE rest).map (fun s => Char.ofNat t :: s)
    else
      none

/-- A context-free character-level encoder, used to instantiate theorems
that hold for every encoder. -/
def charEnc (s : List Char) : List Nat :=
  s.map Char.toNat

/-- A 1001-character text whose byte-pair merge of the characters at
positions 999 and 1000 straddles the 1000-character chunk boundary. -/
def boundarySpanInput : List Char := 'b' :: List.replicate 1000 'a'

/-- The index list of `range(0, n, 1000)` consists of the multiples of
1000 up to the ceiling of `n / 1000`. -/
theorem chunkStarts_eq (n : Nat) :
    chunkStarts n = (List.range ((n + 999) / 1000)).map (fun k => 1000 * k) := by
  induction n with
  | zero => rfl
  | succ n ih =>
    rw [chunkStarts, List.range_succ, List.filter_append] at *
    rw [ih]
    by_cases h : n % 1000 = 0
    · have h2 : (n + 1 + 999) / 1000 = (n + 999) / 1000 + 1 := by omega
      have h3 : 1000 * ((n + 999) / 1000) = n := by omega
      rw [h2, List.range_succ, List.map_append]
      simp [h, h3]
    · have h2 : (n + 1 + 999) / 1000 = (n + 999) / 1000 := by omega
      rw [h2]
      simp [h]

/-- Closed form of the chunk list: the k-th chunk is the slice starting
at index `1000 * k`. -/
theorem chunks_eq (s : List Char) :
    chunks s = (List.range ((s.length + 999) / 1000)).map
      (fun k => (s.drop (1000 * k)).take 1000) := by
  rw [chunks, chunkStarts_eq, List.map_map]
  rfl

/-- Unfolding step of the chunk list on a non-empty text. -/
theorem chunks_cons (s : List Char) (h : s ≠ []) :
    chunks s = s.take 1000 :: chunks (s.drop 1000) := by
  have h0 : 0 < s.length := List.length_pos.mpr h
  rw [chunks_eq, chunks_eq]
  have h1 : (s.length + 999) / 1000 = ((s.drop 1000).length + 999) / 1000 + 1 := by
    rw [List.length_drop]; omega
  rw [h1, List.range_succ_eq_map, List.map_cons, List.map_map]
  congr 1
  apply List.map_congr_left
  intro a _
  simp only [Function.comp_apply, List.drop_drop]
  congr 2
  omega

/-- The chunks concatenate back to the original text. -/
theorem chunks_flatten (s : List Char) : (chunks s).flatten = s := by
  generalize hn : s.length = n
  induction n using Nat.strong_induction_on generalizing s with
  | _ n ih =>
    rcases eq_or_ne s [] with rfl | h
    · rfl
    · have h0 : 0 < s.length := List.length_pos.mpr h
      rw [chunks_cons s h, List.flatten_cons,
        ih (s.drop 1000).length (by rw [List.length_drop]; omega) _ rfl]
      exact List.take_append_drop 1000 s

/-- There are exactly ceiling-of-`n / 1000` many chunks. -/
theorem chunks_length (s : List Char) : (chunks s).length = (s.length + 999) / 1000 := by
  rw [chunks_eq, List.length_map, List.length_range]

/-- Every chunk has at most 1000 characters. -/
theorem chunks_length_le (s : List Char) : ∀ c ∈ chunks s, c.length ≤ 1000 := by
  intro c hc
  rw [chunks] at hc
  obtain ⟨i, _, rfl⟩ := List.mem_map.mp hc
  exact le_trans (List.length_take_le _ _) (le_refl _)

/-- Unfolding step of the chunked count on a non-empty text. -/
theorem count_tokens_cons (enc : List Char → List Nat) (s : List Char) (h : s ≠ []) :
    count_tokens enc s = (enc (s.take 1000)).length + count_tokens enc (s.drop 1000) := by
  rw [count_tokens, chunks_cons s h, List.map_cons, List.sum_cons]
  rfl

/-- Round-trip of the modelled byte-pair coder, helper for claim C5. -/
theorem decodeBPE_encodeBPE (T : List Char) : decodeBPE (encodeBPE T) = some T := by
  induction T using encodeBPE.induct with
  | case1 => rfl
  | case2 rest ih =>
    rw [encodeBPE, decodeBPE]
    simp [ih]
  | case3 c rest hne ih =>
    rw [encodeBPE]
    · have hv : c.toNat.isValidChar := c.valid
      have hne2 : c.toNat ≠ 1114112 := by
        rcases hv with h | h <;> omega
      rw [decodeBPE, if_neg hne2, if_pos hv, ih]
      simp
    · exact hne

/-- Evaluation of `execute` once the formatter has succeeded. -/
theorem execute_run (black : List Char → Except (List Char) (List Char))
    (run : List Char → CompletedProcess) (enc : List Char → List Nat)
    (m : Int) (code f : List Char)
    (hf : black code = .ok f) :
    execute black run enc m code =
      (if (run f).returncode ≠ 0 then
        .error (.runtimeError ("Error executing code: ".data ++ (run f).stderr))
      else if m ≠ 0 ∧ (count_tokens enc (run f).stdout : Int) > m then
        .ok (pySlice (run f).stdout m ++ "...".data)
      else
        .ok (run f).stdout) := by
  rw [execute, format_code, hf]

/-- A non-negative Python slice bound is a plain prefix-take. -/
theorem pySlice_nonneg (s : List Char) (m : Int) (h : 0 ≤ m) :
    pySlice s m = s.take m.toNat := by
  rw [pySlice, if_neg (by omega)]

/-- The truncating branch of `execute`, shared by claims C2 and C10. -/
theorem execute_truncates (black : List Char → Except (List Char) (List Char))
    (run : List Char → CompletedProcess) (enc : List Char → List Nat)
    (m : Int) (code f out err : List Char)
    (hf : black code = .ok f) (hr : run f = ⟨0, out, err⟩) (hm : 0 < m)
    (hgt : (count_tokens enc out : Int) > m) :
    execute black run enc m code = .ok (out.take m.toNat ++ "...".data) := by
  rw [execute_run black run enc m code f hf, hr]
  simp only []
  rw [if_neg (by simp), if_pos ⟨by omega, hgt⟩, pySlice_nonneg _ _ (by omega)]

set_option maxRecDepth 100000 in
/-- C1 (as stated, refuted): the chunked parallel count does not always
equal the token count of encoding the whole string at once.  On the
1001-character input `boundarySpanInput` the modelled byte-pair encoder
merges across the chunk boundary, so the chunked count is 502 while the
whole-string count is 501. -/
theorem C1_chunked_count_counterexample :
    count_tokens encodeBPE boundarySpanInput ≠ (encodeBPE boundarySpanInput).length := by
  decide

/-- C1 (amended): for every encoder whose token count is additive over
concatenation (a context-free encoder, as the spec assumes), the chunked
parallel count equals the token count of encoding the whole string at
once. -/
theorem C1_count_tokens_of_additive (enc : List Char → List Nat)
    (hadd : ∀ a b : List Char, (enc (a ++ b)).length = (enc a).length + (enc b).length)
    (T : List Char) : count_tokens enc T = (enc T).length := by
  generalize hn : T.length = n
  induction n using Nat.strong_induction_on generalizing T with
  | _ n ih =>
    rcases eq_or_ne T [] with rfl | h
    · have h0 := hadd [] []
      simp at h0
      simp [count_tokens, chunks, chunkStarts, h0]
    · have h0 : 0 < T.length := List.length_pos.mpr h
      rw [count_tokens_cons enc T h,
        ih (T.drop 1000).length (by rw [List.length_drop]; omega) _ rfl]
      have h2 := hadd (T.take 1000) (T.drop 1000)
      rw [List.take_append_drop] at h2
      omega

/-- Witness for C1: the character-level encoder is additive, and on
`"hello"` the chunked count equals the whole-string count. -/
theorem C1_witness :
    count_tokens charEnc "hello".data = (charEnc "hello".data).length :=
  C1_count_tokens_of_additive charEnc (fun a b => by simp [charEnc]) "hello".data

/-- C2: with a successfully formatted and executed program and a positive
`max_output_length`, if the token count of the captured output exceeds
the threshold then `execute` returns the output truncated to
`max_output_length` characters with the marker `"..."` appended (the
result ends in the marker and has length at most `max_output_length + 3`);
if the token count does not exceed the threshold the output is returned
unchanged. -/
theorem C2_truncation_policy (black : List Char → Except (List Char) (List Char))
    (run : List Char → CompletedProcess) (enc : List Char → List Nat)
    (m : Int) (code f out err : List Char)
    (hf : black code = .ok f) (hr : run f = ⟨0, out, err⟩) (hm : 0 < m) :
    ((count_tokens enc out : Int) > m →
      execute black run enc m code = .ok (out.take m.toNat ++ "...".data) ∧
      "...".data <:+ out.take m.toNat ++ "...".data ∧
      (out.take m.toNat ++ "...".data).length ≤ m.toNat + 3) ∧
    ((count_tokens enc out : Int) ≤ m →
      execute black run enc m code = .ok out) := by
  constructor
  · intro hgt
    refine ⟨execute_truncates black run enc m code f out err hf hr hm hgt,
      List.suffix_append _ _, ?_⟩
    have h1 : (out.take m.toNat).length ≤ m.toNat := List.length_take_le _ _
    have h2 : ("...".data).length = 3 := by decide
    rw [List.length_append, h2]
    omega
  · intro hle
    rw [execute_run black run enc m code f hf, hr]
    simp only []
    rw [if_neg (by simp), if_neg (by rintro ⟨-, hgt⟩; omega)]

/-- Witness for C2: with threshold 5 and output `"a b c d e f g h"`
(15 single-character tokens), `execute` returns `"a b c..."`. -/
theorem C2_witness :
    execute (fun c => .ok c) (fun _ => ⟨0, "a b c d e f g h".data, []⟩) charEnc 5 [] =
      .ok "a b c...".data := by
  have h := (C2_truncation_policy (fun c => .ok c)
    (fun _ => ⟨0, "a b c d e f g h".data, []⟩) charEnc 5 [] []
    "a b c d e f g h".data [] rfl rfl (by decide)).1 (by decide)
  exact h.1.trans (by rfl)

/-- C3: when the external process exits with a non-zero status, `execute`
fails with a runtime error whose message contains the captured stderr
text, and no output value is returned. -/
theorem C3_nonzero_exit (black : List Char → Except (List Char) (List Char))
    (run : List Char → CompletedProcess) (enc : List Char → List Nat)
    (m : Int) (code f out err : List Char) (c : Int)
    (hf : black code = .ok f) (hr : run f = ⟨c, out, err⟩) (hc : c ≠ 0) :
    execute black run enc m code =
      .error (.runtimeError ("Error executing code: ".data ++ err)) ∧
    err <:+: "Error executing code: ".data ++ err ∧
    ∀ o, execute black run enc m code ≠ .ok o := by
  have h1 : execute black run enc m code =
      .error (.runtimeError ("Error executing code: ".data ++ err)) := by
    rw [execute_run black run enc m code f hf, hr]
    simp only []
    rw [if_pos hc]
  refine ⟨h1, ⟨"Error executing code: ".data, [], by simp⟩, ?_⟩
  intro o h2
  rw [h1] at h2
  exact Except.noConfusion h2

/-- Witness for C3: a process exiting with status 1 and stderr `"boom"`
makes `execute` fail with a message containing `"boom"`. -/
theorem C3_witness :
    execute (fun c => .ok c) (fun _ => ⟨1, [], "boom".data⟩) charEnc 1000 [] =
      .error (.runtimeError ("Error executing code: ".data ++ "boom".data)) ∧
    "boom".data <:+: "Error executing code: ".data ++ "boom".data := by
  have h := C3_nonzero_exit (fun c => .ok c) (fun _ => ⟨1, [], "boom".data⟩)
    charEnc 1000 [] [] [] "boom".data 1 rfl rfl (by decide)
  exact ⟨h.1, h.2.1⟩

/-- C4: the total returned by `count_tokens` equals the sum of the
independently computed per-chunk token counts, and any reordering of
those per-chunk counts has the same sum, so chunk processing order does
not affect the final count. -/
theorem C4_chunk_sum_perm (enc : List Char → List Nat) (T : List Char) (l : List Nat)
    (hperm : l.Perm ((chunks T).map (fun c => (enc c).length))) :
    count_tokens enc T = ((chunks T).map (fun c => (enc c).length)).sum ∧
    l.sum = count_tokens enc T := by
  refine ⟨rfl, ?_⟩
  rw [count_tokens]
  exact hperm.sum_eq

/-- Witness for C4: on the text `"ab"` the per-chunk counts are `[2]`
and their sum is the total count. -/
theorem C4_witness :
    count_tokens charEnc "ab".data =
      ((chunks "ab".data).map (fun c => (charEnc c).length)).sum ∧
    List.sum [2] = count_tokens charEnc "ab".data :=
  C4_chunk_sum_perm charEnc "ab".data [2] (by decide)

/-- C5: on the modelled byte-pair coder, decoding the encoding of any
text yields the text back, and a malformed token sequence (here the
surrogate id 55296) fails to decode. -/
theorem C5_roundtrip_and_malformed :
    (∀ T : List Char, decodeBPE (encodeBPE T) = some T) ∧ decodeBPE [55296] = none :=
  ⟨decodeBPE_encodeBPE, by decide⟩

/-- C6: `count_tokens` partitions a text of length L into exactly
`ceil(L / 1000)` chunks (in natural-number arithmetic,
`(L + 999) / 1000`), each chunk has at most 1000 characters, and the
chunks are contiguous slices: concatenated in order they give back the
text. -/
theorem C6_chunk_partition (T : List Char) :
    (chunks T).length = (T.length + 999) / 1000 ∧
    (∀ c ∈ chunks T, c.length ≤ 1000) ∧
    (chunks T).flatten = T :=
  ⟨chunks_length T, chunks_length_le T, chunks_flatten T⟩

/-- C7: on the empty string the chunk list is empty and `count_tokens`
returns 0, for every encoder. -/
theorem C7_count_tokens_empty (enc : List Char → List Nat) :
    count_tokens enc [] = 0 := rfl

/-- C8: when the formatter rejects the code, `format_code` fails with a
format error and `execute` propagates exactly that error; no output
value is returned. -/
theorem C8_format_error (black : List Char → Except (List Char) (List Char))
    (run : List Char → CompletedProcess) (enc : List Char → List Nat)
    (m : Int) (code e : List Char)
    (hb : black code = .error e) :
    execute black run enc m code =
      .error (.formatError ("Error formatting code: ".data ++ e)) ∧
    format_code black code =
      .error (.formatError ("Error formatting code: ".data ++ e)) ∧
    ∀ o, execute black run enc m code ≠ .ok o := by
  have h0 : format_code black code =
      .error (.formatError ("Error formatting code: ".data ++ e)) := by
    rw [format_code, hb]
  have h1 : execute black run enc m code =
      .error (.formatError ("Error formatting code: ".data ++ e)) := by
    rw [execute, h0]
  refine ⟨h1, h0, ?_⟩
  intro o h2
  rw [h1] at h2
  exact Except.noConfusion h2

/-- Witness for C8: a formatter rejecting the code with message `"bad"`
makes `execute` fail with the corresponding format error. -/
theorem C8_witness :
    execute (fun _ => .error "bad".data) (fun _ => ⟨0, [], []⟩) charEnc 1000 [] =
      .error (.formatError ("Error formatting code: ".data ++ "bad".data)) ∧
    format_code (fun _ => .error "bad".data) [] =
      .error (.formatError ("Error formatting code: ".data ++ "bad".data)) := by
  have h := C8_format_error (fun _ => .error "bad".data) (fun _ => ⟨0, [], []⟩)
    charEnc 1000 [] "bad".data rfl
  exact ⟨h.1, h.2.1⟩

/-- C9: when `max_output_length` is 0 (falsy in Python), the truncation
branch is never taken and `execute` returns the captured output
unchanged, whatever its token count. -/
theorem C9_zero_disables_truncation (black : List Char → Except (List Char) (List Char))
    (run : List Char → CompletedProcess) (enc : List Char → List Nat)
    (code f out err : List Char)
    (hf : black code = .ok f) (hr : run f = ⟨0, out, err⟩) :
    execute black run enc 0 code = .ok out := by
  rw [execute_run black run enc 0 code f hf, hr]
  simp

/-- Witness for C9: with threshold 0 the 15-token output
`"a b c d e f g h"` is returned unchanged. -/
theorem C9_witness :
    execute (fun c => .ok c) (fun _ => ⟨0, "a b c d e f g h".data, []⟩) charEnc 0 [] =
      .ok "a b c d e f g h".data :=
  C9_zero_disables_truncation (fun c => .ok c)
    (fun _ => ⟨0, "a b c d e f g h".data, []⟩) charEnc []
    [] "a b c d e f g h".data [] rfl rfl

/-- C10: whenever truncation occurs (positive threshold exceeded by the
token count), the character-truncation bound is the same
`max_output_length` value used as the token threshold: the result is
exactly the first `max_output_length` characters of the output followed
by the three-character marker `"..."`, of total length
`max_output_length + 3` when the output has at least
`max_output_length` characters. -/
theorem C10_truncation_length (black : List Char → Except (List Char) (List Char))
    (run : List Char → CompletedProcess) (enc : List Char → List Nat)
    (m : Int) (code f out err : List Char)
    (hf : black code = .ok f) (hr : run f = ⟨0, out, err⟩) (hm : 0 < m)
    (hgt : (count_tokens enc out : Int) > m) (hlen : m.toNat ≤ out.length) :
    execute black run enc m code = .ok (out.take m.toNat ++ "...".data) ∧
    (out.take m.toNat ++ "...".data).length = m.toNat + 3 := by
  constructor
  · exact execute_truncates black run enc m code f out err hf hr hm hgt
  · have h2 : ("...".data).length = 3 := by decide
    rw [List.length_append, h2, List.length_take]
    omega

/-- Witness for C10: threshold 5 on the 15-character output
`"a b c d e f g h"` yields its first 5 characters plus `"..."`, of
length 8. -/
theorem C10_witness :
    execute (fun c => .ok c) (fun _ => ⟨0, "a b c d e f g h".data, []⟩) charEnc 5 [] =
      .ok ("a b c d e f g h".data.take (5 : Int).toNat ++ "...".data) ∧
    ("a b c d e f g h".data.take (5 : Int).toNat ++ "...".data).length = (5 : Int).toNat + 3 :=
  C10_truncation_length (fun c => .ok c) (fun _ => ⟨0, "a b c d e f g h".data, []⟩)
    charEnc 5 [] [] "a b c d e f g h".data [] rfl rfl (by decide) (by decide) (by decide)

end Swarms
